import Mathlib

/-!
Verification of the capacity-record normalization and derivation pipeline of
the `mapa-subestaciones` repository (`src/processor.py`, `src/app.py`).

Python / numpy floating-point cells are modelled as `Option ℚ`: `some q` is an
ordinary finite value, `none` is NaN (produced by `pd.to_numeric(errors="coerce")`
on unparseable input and propagated by arithmetic).  Comparisons against NaN are
`false`, exactly as in Python/numpy.  The geographic projection itself is out of
scope (the spec treats it as an external collaborator); the pipeline logic around
it is modelled faithfully.
-/

namespace MapaSub

/-- A Python/numpy float cell: `none` models NaN. -/
abbrev PyFloat := Option ℚ

/-- Addition on float cells: NaN propagates, as in numpy. -/
def fadd : PyFloat → PyFloat → PyFloat
  | some a, some b => some (a + b)
  | _, _ => none

/-- Division on float cells.  NaN propagates; division by zero yields a
non-rational result (numpy inf or NaN, both collapsed to `none` here — in the
source every division is guarded by `cap_total > 0`, so this branch is never
selected by `npWhere`). -/
def fdiv : PyFloat → PyFloat → PyFloat
  | some a, some b => if b = 0 then none else some (a / b)
  | _, _ => none

/-- Multiplication on float cells: NaN propagates. -/
def fmul : PyFloat → PyFloat → PyFloat
  | some a, some b => some (a * b)
  | _, _ => none

/-- Comparison `x > c` on a float cell: any comparison with NaN is `false` (Python/numpy). -/
def fgt (p : PyFloat) (c : ℚ) : Bool :=
  match p with
  | some a => decide (c < a)
  | none => false

/-- Comparison `x <= c` on a float cell: any comparison with NaN is `false` (Python/numpy). -/
def fle (p : PyFloat) (c : ℚ) : Bool :=
  match p with
  | some a => decide (a ≤ c)
  | none => false

/-- Element-wise `np.where(cond, a, b)`. -/
def npWhere (cond : Bool) (a b : PyFloat) : PyFloat :=
  if cond then a else b

/-- Derived `cap_total` as computed in `DataProcessor.process_data`
(`processor.py` line 103-105): `cap_disp + cap_ocup + cap_no_eval`
(three components, the committed component is not included). -/
def capTotal3 (cap_disp cap_ocup cap_no_eval : ℚ) : ℚ :=
  cap_disp + cap_ocup + cap_no_eval

/-- Derived `cap_total` as computed in the `__main__` merge pipeline
(`processor.py` line 344): `cap_disp + cap_comp + cap_ocup + cap_no_eval`. -/
def capTotal4 (cap_disp cap_comp cap_ocup cap_no_eval : ℚ) : ℚ :=
  cap_disp + cap_comp + cap_ocup + cap_no_eval

/-- Float-cell version of the three-component `cap_total` of `process_data`. -/
def capTotal3F (cap_disp cap_ocup cap_no_eval : PyFloat) : PyFloat :=
  fadd (fadd cap_disp cap_ocup) cap_no_eval

/-- Availability `porcentaje_disponible` on plain rationals:
`np.where(cap_total > 0, cap_disp / cap_total * 100, 0)`
(`processor.py` line 106-108, `app.py` line 67-69). -/
def availability_pct (cap_total cap_disp : ℚ) : ℚ :=
  if 0 < cap_total then cap_disp / cap_total * 100 else 0

/-- Availability `porcentaje_disponible` on float cells, exactly the `np.where` expression of
`processor.py` line 106-108. -/
def porcentaje (cap_total cap_disp : PyFloat) : PyFloat :=
  npWhere (fgt cap_total 0) (fmul (fdiv cap_disp cap_total) (some 100)) (some 0)

/-- Function `get_color` from `app.py` line 83-94, lifted to float cells (the Python
function receives a float; each failed `<=` test falls through). -/
def get_color (porcentaje_disponible : PyFloat) : String :=
  if fle porcentaje_disponible 20 then "#FF0000"
  else if fle porcentaje_disponible 40 then "#FF6600"
  else if fle porcentaje_disponible 60 then "#FFFF00"
  else if fle porcentaje_disponible 80 then "#99FF00"
  else "#00FF00"

/-- The character filter of the cleaning regex `[^\d\.\-]` in
`processor.py` line 85: keep digits, the period and the minus sign. -/
def keepNumChar (c : Char) : Bool :=
  c.isDigit || c == '.' || c == '-'

/-- Replacement `.str.replace(",", ".")`: with a one-character pattern Python's string
replace is a character map. -/
def commaToPeriod (s : String) : String :=
  String.mk (s.toList.map (fun c => if c == ',' then '.' else c))

/-- Cleaning steps of the numeric coercion (`processor.py` line 81-86):
`.str.replace(",", ".")` then `.str.replace(r"[^\d\.\-]", "")`. -/
def cleanNumeric (s : String) : String :=
  String.mk ((commaToPeriod s).toList.filter keepNumChar)

/-- Value of a digit string, most significant first. -/
def digitsVal (cs : List Char) : ℕ :=
  cs.foldl (fun n c => 10 * n + (c.toNat - 48)) 0

/-- Parse an unsigned decimal literal (digit run, optional period, digit run;
at least one digit, at most one period), the forms `pd.to_numeric` /
Python `float` accept once the input is restricted to digits, periods and
minus signs.  Anything else is a parse failure (`none`). -/
def parseUnsigned (cs : List Char) : Option ℚ :=
  let ip := cs.takeWhile (fun c => c ≠ '.')
  let fp := (cs.dropWhile (fun c => c ≠ '.')).drop 1
  if ip.all Char.isDigit && fp.all Char.isDigit && !fp.contains '.' &&
      (!ip.isEmpty || !fp.isEmpty) then
    some ((digitsVal ip : ℚ) + (digitsVal fp : ℚ) / (10 : ℚ) ^ fp.length)
  else
    none

/-- Signed decimal parse: the behaviour of `pd.to_numeric(errors="coerce")`
on a cleaned cell; `none` is the NaN emitted on failure or empty input. -/
def toNumeric (s : String) : Option ℚ :=
  match s.toList with
  | '-' :: rest => (parseUnsigned rest).map (fun q => -q)
  | cs => parseUnsigned cs

/-- The full numeric coercion of one capacity cell
(`processor.py` line 78-87): stringify, comma to period, strip every
character that is not a digit, period or minus, then parse with NaN on
failure. -/
def coerceNumeric (s : String) : PyFloat :=
  toNumeric (cleanNumeric s)

/-- Python `float(s)` as used by `astype(float)` on the coordinate columns
(`processor.py` line 94-95, where only the comma is replaced, nothing is
stripped): outer `none` models the `ValueError` raised on malformed text,
`some none` is the NaN obtained from the string form of a missing cell.
(The exponent and infinity literal forms never occur in coordinate cells.) -/
def pyFloatOfString (s : String) : Option PyFloat :=
  if s == "nan" then some none
  else
    match s.toList with
    | '-' :: rest => (parseUnsigned rest).map (fun q => some (-q))
    | cs => (parseUnsigned cs).map some

/-- The coordinate conversion of one column
(`self.data["x"].astype(str).str.replace(",", ".").astype(float)`,
`processor.py` line 94-95): cells are converted left to right and the first
malformed cell raises, aborting the whole pipeline run
(`Except.error ()`); no row is skipped. -/
def coordColumn : List String → Except Unit (List PyFloat)
  | [] => Except.ok []
  | s :: rest =>
    match pyFloatOfString (commaToPeriod s) with
    | none => Except.error ()
    | some v => (coordColumn rest).map (fun l => v :: l)

/-- The fields of one persisted canonical row that `load_data` in `app.py`
touches for the claims under study. -/
structure Row where
  gestor_red : String
  lat : PyFloat
  lon : PyFloat
  cap_total : PyFloat
  cap_disp : PyFloat
  porcentaje_disponible : PyFloat

/-- Per-row part of `load_data` (`app.py` line 62-69):
`pd.to_numeric(...).fillna(0)` on `cap_total` and `cap_disp`, then the
recomputation `np.where(cap_total > 0, cap_disp / cap_total * 100, 0)`,
overwriting the persisted `porcentaje_disponible`. -/
def load_row (r : Row) : Row :=
  let t := r.cap_total.getD 0
  let d := r.cap_disp.getD 0
  { r with
    cap_total := some t
    cap_disp := some d
    porcentaje_disponible := some (if 0 < t then d / t * 100 else 0) }

/-- Function `load_data` (`app.py` line 48-71): `df.dropna(subset=["lat", "lon"])`
removes every row whose latitude or longitude is NaN, then the numeric
columns are refilled and the availability percentage recomputed. -/
def load_data (rows : List Row) : List Row :=
  (rows.filter (fun r => r.lat.isSome && r.lon.isSome)).map load_row

/-- One step of the running minimum used by `Series.min()` (NaN cells are
skipped before folding, see `capMin`). -/
def stepMin (m : Option ℚ) (x : ℚ) : Option ℚ :=
  some (min (m.getD x) x)

/-- One step of the running maximum used by `Series.max()`. -/
def stepMax (m : Option ℚ) (x : ℚ) : Option ℚ :=
  some (max (m.getD x) x)

/-- Column minimum `dfs_results["cap_total"].min()` (`processor.py` line 357): pandas skips
NaN cells and returns NaN (`none`) on an all-NaN or empty column. -/
def capMin (caps : List PyFloat) : Option ℚ :=
  (caps.filterMap id).foldl stepMin none

/-- Column maximum `dfs_results["cap_total"].max()` (`processor.py` line 356). -/
def capMax (caps : List PyFloat) : Option ℚ :=
  (caps.filterMap id).foldl stepMax none

/-- The radius assigned to a row with capacity `ct` by the merge pipeline
(`processor.py` line 355-365): linear normalization of `cap_total` over the
merged set's global min/max into `[3, 15]`, default `8` when
`max_capacity > min_capacity` fails (equal extremes, or NaN extremes from an
empty set). -/
def merged_radius (caps : List PyFloat) (ct : ℚ) : ℚ :=
  match capMax caps, capMin caps with
  | some mx, some mn => if mn < mx then 3 + (ct - mn) / (mx - mn) * 12 else 8
  | _, _ => 8

/-- Numpy `np.log1p`. -/
noncomputable def log1p (x : ℝ) : ℝ :=
  Real.log (1 + x)

/-- Function `calculate_radius` from `app.py` line 98-104: logarithmic normalization
of `cap_total` over `[min_cap, max_cap]` into `[min_radius, max_radius]`
(defaults 5 and 25), returning `min_radius` when `max_cap == min_cap`. -/
noncomputable def calculate_radius
    (cap_total min_cap max_cap min_radius max_radius : ℝ) : ℝ :=
  if max_cap = min_cap then min_radius
  else
    min_radius + (max_radius - min_radius) *
      ((log1p cap_total - log1p min_cap) / (log1p max_cap - log1p min_cap))

/-- Unfolding of `fle` on a real (non-NaN) value. -/
theorem fle_some (a c : ℚ) : fle (some a) c = decide (a ≤ c) := rfl

/-- C4: on real availability values, `get_color` is the bucketing with
inclusive upper thresholds 20/40/60/80: the five buckets (critical #FF0000,
low #FF6600, moderate #FFFF00, good #99FF00, excellent #00FF00) are
characterized exactly, hence cover every value with no gaps and no
overlaps, and the boundary values 20, 21, 40, 41, 60, 61, 80, 81 map to
the documented buckets. -/
theorem get_color_buckets (pct : ℚ) :
    (get_color (some pct) = "#FF0000" ↔ pct ≤ 20) ∧
    (get_color (some pct) = "#FF6600" ↔ 20 < pct ∧ pct ≤ 40) ∧
    (get_color (some pct) = "#FFFF00" ↔ 40 < pct ∧ pct ≤ 60) ∧
    (get_color (some pct) = "#99FF00" ↔ 60 < pct ∧ pct ≤ 80) ∧
    (get_color (some pct) = "#00FF00" ↔ 80 < pct) ∧
    get_color (some 20) = "#FF0000" ∧ get_color (some 21) = "#FF6600" ∧
    get_color (some 40) = "#FF6600" ∧ get_color (some 41) = "#FFFF00" ∧
    get_color (some 60) = "#FFFF00" ∧ get_color (some 61) = "#99FF00" ∧
    get_color (some 80) = "#99FF00" ∧ get_color (some 81) = "#00FF00" := by
  refine ⟨?_, ?_, ?_, ?_, ?_, by decide, by decide, by decide, by decide,
    by decide, by decide, by decide, by decide⟩ <;>
    · simp only [get_color, fle_some, decide_eq_true_eq]
      split_ifs <;> simp_all <;> intros <;> linarith

/-- C10: `get_color` is total on float inputs including NaN: every
comparison against NaN is false, so a NaN availability percentage falls
through every threshold test to the final else branch and is rendered with
the topmost bucket's color (green, excellent); on any input the result is
one of the five bucket colors. -/
theorem get_color_total_on_nan :
    get_color none = "#00FF00" ∧
    ∀ p : PyFloat,
      get_color p = "#FF0000" ∨ get_color p = "#FF6600" ∨
      get_color p = "#FFFF00" ∨ get_color p = "#99FF00" ∨
      get_color p = "#00FF00" := by
  refine ⟨rfl, fun p => ?_⟩
  unfold get_color
  split_ifs <;> simp

/-- C1: the availability percentage is `0` when `cap_total <= 0` and
`cap_disp / cap_total * 100` when `cap_total > 0`; with non-negative
capacity components it lies in `[0, 100]` whenever `cap_total > 0` (for
both the three-component and the four-component `cap_total`); and on float
cells the guarded `np.where` expression always yields a real number, never
NaN or an infinity (the division is only selected when `cap_total > 0`). -/
theorem availability_pct_spec (d o n c : ℚ)
    (hd : 0 ≤ d) (ho : 0 ≤ o) (hn : 0 ≤ n) (hc : 0 ≤ c) :
    (capTotal3 d o n ≤ 0 → availability_pct (capTotal3 d o n) d = 0) ∧
    (0 < capTotal3 d o n →
      availability_pct (capTotal3 d o n) d = d / capTotal3 d o n * 100 ∧
      0 ≤ availability_pct (capTotal3 d o n) d ∧
      availability_pct (capTotal3 d o n) d ≤ 100) ∧
    (0 < capTotal4 d c o n →
      0 ≤ availability_pct (capTotal4 d c o n) d ∧
      availability_pct (capTotal4 d c o n) d ≤ 100) ∧
    (∀ df og nf : PyFloat, ∃ q : ℚ, porcentaje (capTotal3F df og nf) df = some q) := by
  refine ⟨fun h =>  ?_, fun h => ⟨?_, ?_, ?_⟩, fun h => ⟨?_, ?_⟩, ?_⟩
  · simp only [availability_pct, if_neg (not_lt.mpr h)]
  · simp only [availability_pct, if_pos h]
  · simp only [availability_pct, if_pos h]
    positivity
  · simp only [availability_pct, if_pos h]
    have hdt : d ≤ capTotal3 d o n := by simp only [capTotal3]; linarith
    have h1 : d / capTotal3 d o n ≤ 1 := (div_le_one h).mpr hdt
    nlinarith
  · simp only [availability_pct, if_pos h]
    positivity
  · simp only [availability_pct, if_pos h]
    have hdt : d ≤ capTotal4 d c o n := by simp only [capTotal4]; linarith
    have h1 : d / capTotal4 d c o n ≤ 1 := (div_le_one h).mpr hdt
    nlinarith
  · intro df og nf
    match df, og, nf with
    | none, _, _ => exact ⟨0, rfl⟩
    | some a, none, _ => exact ⟨0, rfl⟩
    | some a, some b, none => exact ⟨0, rfl⟩
    | some a, some b, some e =>
      by_cases ht : (0 : ℚ) < a + b + e
      · refine ⟨a / (a + b + e) * 100, ?_⟩
        have hne : a + b + e ≠ 0 := ne_of_gt ht
        simp [porcentaje, capTotal3F, fadd, fgt, fdiv, fmul, npWhere, ht, hne]
      · refine ⟨0, ?_⟩
        simp [porcentaje, capTotal3F, fadd, fgt, fdiv, fmul, npWhere, ht]

/-- Witness for C1 at `cap_disp = 25`, `cap_ocup = 50`, `cap_no_eval = 25`,
`cap_comp = 0` (the worked scenario of the spec). -/
theorem availability_pct_spec_witness :
    (0 : ℚ) < capTotal3 25 50 25 ∧
    availability_pct (capTotal3 25 50 25) 25 = 25 / capTotal3 25 50 25 * 100 := by
  refine ⟨by norm_num [capTotal3], ?_⟩
  exact ((availability_pct_spec 25 50 25 0 (by norm_num) (by norm_num)
    (by norm_num) (by norm_num)).2.1 (by norm_num [capTotal3])).1

/-- C2 counterexample: in `DataProcessor.process_data` the committed
component is not part of `cap_total`.  For the row with components
`(cap_disp, cap_comp, cap_ocup, cap_no_eval) = (1, 5, 1, 1)` the computed
`cap_total` is `capTotal3 1 1 1 = 3`, not the four-component sum
`1 + 5 + 1 + 1 = 8`. -/
theorem capTotal3_ne_four_component_sum :
    capTotal3 1 1 1 ≠ (1 : ℚ) + 5 + 1 + 1 := by
  norm_num [capTotal3]

/-- C2 amended: the `__main__` merge pipeline computes `cap_total` as the
four-component sum `a + b + c + d`; `DataProcessor.process_data` computes
it as the three-component sum `a + c + d`, excluding the committed
component; both are non-negative on non-negative components. -/
theorem capTotal_variants (a b c d : ℚ)
    (ha : 0 ≤ a) (hb : 0 ≤ b) (hc : 0 ≤ c) (hd : 0 ≤ d) :
    capTotal4 a b c d = a + b + c + d ∧
    capTotal3 a c d = a + c + d ∧
    0 ≤ capTotal4 a b c d ∧ 0 ≤ capTotal3 a c d := by
  refine ⟨rfl, rfl, ?_, ?_⟩ <;> simp only [capTotal4, capTotal3] <;> linarith

/-- Witness for the amended C2 at components `(25, 0, 50, 25)`. -/
theorem capTotal_variants_witness :
    capTotal4 25 0 50 25 = 25 + 0 + 50 + 25 ∧
    capTotal3 25 50 25 = 25 + 50 + 25 ∧
    (0 : ℚ) ≤ capTotal4 25 0 50 25 ∧ (0 : ℚ) ≤ capTotal3 25 50 25 :=
  capTotal_variants 25 0 50 25 (by norm_num) (by norm_num) (by norm_num)
    (by norm_num)

/-- C3 counterexample: the numeric coercion does not clamp to zero.  The
cell `"-5"` coerces to `-5` (the minus sign is kept by the cleaning
regex), giving a negative `cap_total`; and the unparseable cell `"abc"`
coerces to NaN, which propagates into `cap_total` instead of being
treated as `0`. -/
theorem coerce_keeps_negative_and_nan :
    coerceNumeric "-5" = some (-5) ∧
    capTotal3 (-5) 0 0 < 0 ∧
    coerceNumeric "abc" = none ∧
    capTotal3F (coerceNumeric "abc") (some 0) (some 0) = none := by
  have h1 : coerceNumeric "-5" = some (-5) := by
    simp [coerceNumeric, cleanNumeric, commaToPeriod, keepNumChar, toNumeric,
      parseUnsigned, digitsVal]
  have h2 : coerceNumeric "abc" = none := by
    simp [coerceNumeric, cleanNumeric, commaToPeriod, keepNumChar, toNumeric,
      parseUnsigned, digitsVal]
  exact ⟨h1, by norm_num [capTotal3], h2, by rw [h2]; rfl⟩

/-- C3 amended: the coercion yields a rational or NaN, preserving sign:
when the three capacity cells all parse to non-negative rationals,
`cap_total` is their sum, non-negative and not NaN; unparseable cells
become NaN (not `0`) and make `cap_total` NaN, and negative parsed values
are kept, so `cap_total` can be negative. -/
theorem capTotal_nonneg_of_parsed (sd so sn : String) (qd qo qn : ℚ)
    (hd : coerceNumeric sd = some qd) (ho : coerceNumeric so = some qo)
    (hn : coerceNumeric sn = some qn)
    (hd0 : 0 ≤ qd) (ho0 : 0 ≤ qo) (hn0 : 0 ≤ qn) :
    capTotal3F (coerceNumeric sd) (coerceNumeric so) (coerceNumeric sn) =
      some (capTotal3 qd qo qn) ∧
    0 ≤ capTotal3 qd qo qn := by
  rw [hd, ho, hn]
  exact ⟨rfl, by simp only [capTotal3]; linarith⟩

/-- Witness for the amended C3 at cells `"1,5"`, `"2"`, `"0,5"`. -/
theorem capTotal_nonneg_of_parsed_witness :
    capTotal3F (coerceNumeric "1,5") (coerceNumeric "2") (coerceNumeric "0,5") =
      some (capTotal3 (3/2) 2 (1/2)) ∧
    (0 : ℚ) ≤ capTotal3 (3/2) 2 (1/2) := by
  refine capTotal_nonneg_of_parsed "1,5" "2" "0,5" (3/2) 2 (1/2) ?_ ?_ ?_
    (by norm_num) (by norm_num) (by norm_num) <;>
    simp [coerceNumeric, cleanNumeric, commaToPeriod, keepNumChar, toNumeric,
      parseUnsigned, digitsVal] <;>
    norm_num

/-- Function `log1p` is monotone for arguments above `-1`. -/
theorem log1p_le_log1p {x y : ℝ} (hx : -1 < x) (hxy : x ≤ y) :
    log1p x ≤ log1p y :=
  Real.log_le_log (by linarith) (by linarith)

/-- Function `log1p` is strictly monotone for arguments above `-1`. -/
theorem log1p_lt_log1p {x y : ℝ} (hx : -1 < x) (hxy : x < y) :
    log1p x < log1p y :=
  Real.log_lt_log (by linarith) (by linarith)

/-- C5: for `0 ≤ min_cap ≤ max_cap` and `min_radius ≤ max_radius`,
`calculate_radius` is monotone non-decreasing in `cap_total` (over
arguments above `-1`, in particular over all capacities `≥ 0`), takes the
value `min_radius` at `cap_total = min_cap`, the value `max_radius` at
`cap_total = max_cap` when `min_cap < max_cap`, and in the degenerate case
`min_cap = max_cap` is the constant `min_radius` — the guard returns
before the division, so no division by zero, exception or NaN arises. -/
theorem calculate_radius_spec (mn mx rmin rmax : ℝ)
    (h0 : 0 ≤ mn) (hmm : mn ≤ mx) (hr : rmin ≤ rmax) :
    (∀ x y, -1 < x → x ≤ y →
      calculate_radius x mn mx rmin rmax ≤ calculate_radius y mn mx rmin rmax) ∧
    calculate_radius mn mn mx rmin rmax = rmin ∧
    (mn < mx → calculate_radius mx mn mx rmin rmax = rmax) ∧
    (mn = mx → ∀ ct, calculate_radius ct mn mx rmin rmax = rmin) := by
  by_cases hd : mx = mn
  · refine ⟨fun x y hx hxy => ?_, ?_, fun hlt => absurd hd (by linarith), ?_⟩
    · simp [calculate_radius, hd]
    · simp [calculate_radius, hd]
    · intro _ ct
      simp [calculate_radius, hd]
  · have hlt : mn < mx := lt_of_le_of_ne hmm (fun h => hd h.symm)
    have hden : 0 < log1p mx - log1p mn :=
      sub_pos.mpr (log1p_lt_log1p (by linarith) hlt)
    refine ⟨fun x y hx hxy => ?_, ?_, fun _ => ?_, fun h => absurd h.symm hd⟩
    · simp only [calculate_radius, if_neg hd]
      have hnum : log1p x ≤ log1p y := log1p_le_log1p hx hxy
      have hdiv : (log1p x - log1p mn) / (log1p mx - log1p mn) ≤
          (log1p y - log1p mn) / (log1p mx - log1p mn) :=
        (div_le_div_iff_of_pos_right hden).mpr (by linarith)
      have hmul := mul_le_mul_of_nonneg_left hdiv (sub_nonneg.mpr hr)
      linarith
    · simp only [calculate_radius, if_neg hd, sub_self, zero_div, mul_zero,
        add_zero]
    · simp only [calculate_radius, if_neg hd,
        div_self (ne_of_gt hden)]
      ring

/-- Witness for C5 with the default radii `[5, 25]` and range `[0, 1]`. -/
theorem calculate_radius_spec_witness :
    calculate_radius 0 0 1 5 25 = 5 ∧ calculate_radius 1 0 1 5 25 = 25 :=
  ⟨(calculate_radius_spec 0 1 5 25 le_rfl (by norm_num) (by norm_num)).2.1,
   (calculate_radius_spec 0 1 5 25 le_rfl (by norm_num) (by norm_num)).2.2.1
     (by norm_num)⟩

instance : RightCommutative stepMin := by
  constructor
  intro m a b
  cases m with
  | none => simp only [stepMin, Option.getD]; rw [min_self, min_self, min_comm]
  | some y => simp only [stepMin, Option.getD]; rw [min_right_comm]

instance : RightCommutative stepMax := by
  constructor
  intro m a b
  cases m with
  | none => simp only [stepMax, Option.getD]; rw [max_self, max_self, max_comm]
  | some y => simp only [stepMax, Option.getD]; rw [sup_right_comm]

/-- Folding the running minimum from a real start value is folding `min`. -/
theorem foldl_stepMin_some (l : List ℚ) :
    ∀ v : ℚ, l.foldl stepMin (some v) = some (l.foldl min v) := by
  induction l with
  | nil => intro v; rfl
  | cons x xs ih => intro v; exact ih (min v x)

/-- Folding the running maximum from a real start value is folding `max`. -/
theorem foldl_stepMax_some (l : List ℚ) :
    ∀ v : ℚ, l.foldl stepMax (some v) = some (l.foldl max v) := by
  induction l with
  | nil => intro v; rfl
  | cons x xs ih => intro v; exact ih (max v x)

/-- Operation `min` threads through a `foldl min`. -/
theorem foldl_min_min (l : List ℚ) :
    ∀ a b : ℚ, l.foldl min (min a b) = min a (l.foldl min b) := by
  induction l with
  | nil => intro a b; rfl
  | cons c cs ih =>
    intro a b
    show cs.foldl min (min (min a b) c) = min a (cs.foldl min (min b c))
    rw [min_assoc, ih]

/-- Operation `max` threads through a `foldl max`. -/
theorem foldl_max_max (l : List ℚ) :
    ∀ a b : ℚ, l.foldl max (max a b) = max a (l.foldl max b) := by
  induction l with
  | nil => intro a b; rfl
  | cons c cs ih =>
    intro a b
    show cs.foldl max (max (max a b) c) = max a (cs.foldl max (max b c))
    rw [max_assoc, ih]

/-- Restarting the minimum fold above an already-computed minimum. -/
theorem foldl_stepMin_from_some (l : List ℚ) (a b : ℚ)
    (h : l.foldl stepMin none = some b) :
    l.foldl stepMin (some a) = some (min a b) := by
  match l with
  | [] => exact absurd h (by simp)
  | x :: xs =>
    have hb : xs.foldl min x = b := by
      have h0 : (x :: xs).foldl stepMin none = xs.foldl stepMin (some (min x x)) := rfl
      rw [h0, foldl_stepMin_some, min_self] at h
      exact Option.some.inj h
    have h1 : (x :: xs).foldl stepMin (some a) = xs.foldl stepMin (some (min a x)) := rfl
    rw [h1, foldl_stepMin_some, foldl_min_min, hb]

/-- Restarting the maximum fold above an already-computed maximum. -/
theorem foldl_stepMax_from_some (l : List ℚ) (a b : ℚ)
    (h : l.foldl stepMax none = some b) :
    l.foldl stepMax (some a) = some (max a b) := by
  match l with
  | [] => exact absurd h (by simp)
  | x :: xs =>
    have hb : xs.foldl max x = b := by
      have : (x :: xs).foldl stepMax none = xs.foldl stepMax (some (max x x)) := rfl
      rw [this, foldl_stepMax_some, max_self] at h
      exact Option.some.inj h
    have : (x :: xs).foldl stepMax (some a) = xs.foldl stepMax (some (max a x)) := rfl
    rw [this, foldl_stepMax_some, foldl_max_max, hb]

/-- The column minimum of a concatenation combines the two column minima. -/
theorem capMin_append (A B : List PyFloat) (a b : ℚ)
    (hA : capMin A = some a) (hB : capMin B = some b) :
    capMin (A ++ B) = some (min a b) := by
  unfold capMin at *
  rw [List.filterMap_append, List.foldl_append, hA, foldl_stepMin_from_some _ a b hB]

/-- The column maximum of a concatenation combines the two column maxima. -/
theorem capMax_append (A B : List PyFloat) (a b : ℚ)
    (hA : capMax A = some a) (hB : capMax B = some b) :
    capMax (A ++ B) = some (max a b) := by
  unfold capMax at *
  rw [List.filterMap_append, List.foldl_append, hA, foldl_stepMax_from_some _ a b hB]

/-- The column minimum only depends on the multiset of cells. -/
theorem capMin_perm (l1 l2 : List PyFloat) (p : l1.Perm l2) :
    capMin l1 = capMin l2 :=
  (p.filterMap id).foldl_eq none

/-- The column maximum only depends on the multiset of cells. -/
theorem capMax_perm (l1 l2 : List PyFloat) (p : l1.Perm l2) :
    capMax l1 = capMax l2 :=
  (p.filterMap id).foldl_eq none

/-- C6: merging two per-operator record sets whose `cap_total` columns range
over `[10, 100]` and `[50, 200]` gives the merged global range `[10, 200]`,
and the merge pipeline assigns every row its radius from that merged global
min/max; the concatenation order (any permutation of the rows) changes no
row's assigned radius. -/
theorem merged_radius_spec (A B : List PyFloat)
    (hA1 : capMin A = some 10) (hA2 : capMax A = some 100)
    (hB1 : capMin B = some 50) (hB2 : capMax B = some 200) :
    capMin (A ++ B) = some 10 ∧ capMax (A ++ B) = some 200 ∧
    (∀ ct : ℚ, merged_radius (A ++ B) ct = 3 + (ct - 10) / (200 - 10) * 12) ∧
    (∀ (l1 l2 : List PyFloat) (ct : ℚ), l1.Perm l2 →
      merged_radius l1 ct = merged_radius l2 ct) := by
  have hmin : capMin (A ++ B) = some 10 := by
    rw [capMin_append A B 10 50 hA1 hB1]
    norm_num
  have hmax : capMax (A ++ B) = some 200 := by
    rw [capMax_append A B 100 200 hA2 hB2]
    norm_num
  refine ⟨hmin, hmax, fun ct => ?_, fun l1 l2 ct p => ?_⟩
  · rw [merged_radius, hmin, hmax]
    norm_num
  · rw [merged_radius, merged_radius, capMin_perm l1 l2 p, capMax_perm l1 l2 p]

/-- Witness for C6 on the two-row sets `{10, 100}` and `{50, 200}`. -/
theorem merged_radius_spec_witness :
    capMin (([some 10, some 100] : List PyFloat) ++ [some 50, some 200]) = some 10 ∧
    capMax (([some 10, some 100] : List PyFloat) ++ [some 50, some 200]) = some 200 :=
  ⟨(merged_radius_spec [some 10, some 100] [some 50, some 200]
      (by decide) (by decide) (by decide) (by decide)).1,
   (merged_radius_spec [some 10, some 100] [some 50, some 200]
      (by decide) (by decide) (by decide) (by decide)).2.1⟩

/-- C8 counterexample: a single malformed coordinate cell does not drop
just its own row — the float conversion raises and the whole pipeline run
aborts.  On the column `["100,5", "abc"]` the conversion errors out
instead of continuing with the one good row, which alone converts fine. -/
theorem coordColumn_aborts_on_bad_row :
    coordColumn ["100,5", "abc"] = Except.error () ∧
    coordColumn ["100,5"] = Except.ok [some (201 / 2)] := by
  constructor
  · rfl
  · show Except.ok [pyFloatOfString (commaToPeriod "100,5") |>.getD none] =
      Except.ok [some (201 / 2)]
    simp [pyFloatOfString, commaToPeriod, parseUnsigned, digitsVal]
    norm_num

/-- C8 amended: a malformed coordinate cell aborts the whole pipeline run
(the float conversion raises, no row is skipped); rows whose transformed
coordinates end up missing are only removed later, by the dropna of the
presentation layer's `load_data`, so every row retained there has both
latitude and longitude populated. -/
theorem coordColumn_abort_and_dropna (xs : List String) (s : String)
    (hs : s ∈ xs) (hbad : pyFloatOfString (commaToPeriod s) = none) :
    coordColumn xs = Except.error () ∧
    ∀ (rows : List Row), ∀ r ∈ load_data rows, r.lat.isSome ∧ r.lon.isSome := by
  constructor
  · induction xs with
    | nil => exact absurd hs (List.not_mem_nil s)
    | cons x rest ih =>
      show (match pyFloatOfString (commaToPeriod x) with
        | none => Except.error ()
        | some v => (coordColumn rest).map (fun l => v :: l)) = Except.error ()
      rcases List.mem_cons.mp hs with h | h
      · subst h
        rw [hbad]
      · cases hx : pyFloatOfString (commaToPeriod x) with
        | none => rfl
        | some v => rw [ih h]; rfl
  · intro rows r hr
    rcases List.mem_map.mp hr with ⟨r0, hr0, hload⟩
    have hkeep := List.of_mem_filter hr0
    have h1 : r0.lat.isSome ∧ r0.lon.isSome := by
      have := Bool.and_eq_true_iff.mp hkeep
      exact ⟨this.1, this.2⟩
    have hlat : r.lat = r0.lat := by rw [hload.symm]; rfl
    have hlon : r.lon = r0.lon := by rw [hload.symm]; rfl
    rw [hlat, hlon]
    exact h1

/-- Witness for the amended C8 on the single-cell column `["abc"]`. -/
theorem coordColumn_abort_and_dropna_witness :
    coordColumn ["abc"] = Except.error () :=
  (coordColumn_abort_and_dropna ["abc"] "abc" (List.mem_singleton.mpr rfl)
    (by decide)).1

/-- C9: on load the presentation layer recomputes the availability
percentage from `cap_disp` and `cap_total` alone (after filling missing
values with `0` and guarding on `cap_total > 0`): the persisted
`porcentaje_disponible` is discarded — two rows agreeing on `cap_total`
and `cap_disp` load to the same percentage irrespective of their persisted
one — and the recomputed value is `0` whenever `cap_total` is missing or
non-positive. -/
theorem load_row_recomputes_pct (r : Row) :
    (load_row r).porcentaje_disponible =
      some (if 0 < r.cap_total.getD 0
        then r.cap_disp.getD 0 / r.cap_total.getD 0 * 100 else 0) ∧
    (∀ r2 : Row, r2.cap_total = r.cap_total → r2.cap_disp = r.cap_disp →
      (load_row r2).porcentaje_disponible = (load_row r).porcentaje_disponible) ∧
    ((r.cap_total = none ∨ ∃ t, r.cap_total = some t ∧ t ≤ 0) →
      (load_row r).porcentaje_disponible = some 0) := by
  refine ⟨rfl, fun r2 h1 h2 => ?_, fun h => ?_⟩
  · show some (if 0 < r2.cap_total.getD 0
        then r2.cap_disp.getD 0 / r2.cap_total.getD 0 * 100 else 0) =
      some (if 0 < r.cap_total.getD 0
        then r.cap_disp.getD 0 / r.cap_total.getD 0 * 100 else 0)
    rw [h1, h2]
  · show some (if 0 < r.cap_total.getD 0
        then r.cap_disp.getD 0 / r.cap_total.getD 0 * 100 else 0) = some 0
    rcases h with h | ⟨t, ht, ht0⟩
    · rw [h]
      rfl
    · rw [ht]
      simp only [Option.getD_some, if_neg (not_lt.mpr ht0)]

/-- Witness for C9 on a row persisted with `cap_total = -1` and a stale
percentage of `55`. -/
theorem load_row_recomputes_pct_witness :
    (load_row ⟨"i-DE", some 40, some (-3), some (-1), some 5, some 55⟩).porcentaje_disponible
      = some 0 :=
  (load_row_recomputes_pct ⟨"i-DE", some 40, some (-3), some (-1), some 5, some 55⟩).2.2
    (Or.inr ⟨-1, rfl, by norm_num⟩)

end MapaSub
